import Mathlib

/-!
# Verification of the GNews feed client (`src/gnews/gnews.py`)

This file is a shallow embedding of the core logic of `gnews/gnews.py`:
the exclusion-pattern website filter, the locale/period suffix builder
(`GNews._ceid`), the per-entry URL resolver (`GNews._get_url`), the
fetch-filter-normalize loop (`GNews._get_news`) and the four public query
operations.  External effects are passed in as oracle functions:

* `parse : String → List Item` stands for `feedparser.parse(url).entries`;
* `head : String → Except Unit (Option String)` stands for
  `requests.head(url)`: `Except.error ()` is a raised request exception,
  `Except.ok loc` is a response whose headers yield `loc` for the
  (case-insensitive) `location` key;
* `getText : String → String` stands for
  `BeautifulSoup(html, "html.parser").get_text()`.

Machine-level caveats of the embedding: Python's `str.lower`/`str.upper`
agree with `Char.toLower`/`Char.toUpper` on the ASCII range used by the
configuration strings modelled here.
-/

/-- One-character step of the regex matcher: a pattern character `c`
matches an input character `d`; the pattern character `.` is the regex
wildcard, matching every character except a newline (Python `re` without
`re.DOTALL`), every other pattern character matches only itself.  The
patterns built by `GNews.__init__` contain no other regex metacharacters,
so this is the whole character semantics needed. -/
def charMatch (c d : Char) : Bool :=
  if c = '.' then d != '\n' else c == d

/-- Match a literal pattern fragment (with `.` as wildcard) against the
start of the input, returning the unconsumed rest on success.  This is
the semantics of a regex fragment made only of literal characters and
`.`, anchored at the start as with `re.match`. -/
def matchLit : List Char → List Char → Option (List Char)
  | [], s => some s
  | _ :: _, [] => none
  | c :: ps, d :: ss => if charMatch c d then matchLit ps ss else none

/-- The fragment `www.` of the pattern `(www.)?` (the dot is a wildcard). -/
def wwwDot : List Char := ['w', 'w', 'w', '.']

/-- The fragment `http` of the pattern prefix `^http(s)?://`. -/
def httpLit : List Char := ['h', 't', 't', 'p']

/-- The fragment `s://`: the greedy `(s)?` branch followed by `://`. -/
def schemeTailS : List Char := ['s', ':', '/', '/']

/-- The fragment `://`: the empty `(s)?` branch followed by `://`. -/
def schemeTail : List Char := [':', '/', '/']

/-- Backtracking semantics of `(www.)?<host>` applied to input `s`:
the greedy branch consumes `www.` and then matches `<host>`; on failure
the matcher backtracks and matches `<host>` directly.  The trailing `.*`
of the pattern always succeeds, so success is just `isSome`. -/
def optStep (host : List Char) (s : List Char) : Bool :=
  match matchLit wwwDot s with
  | some r => (matchLit host r).isSome || (matchLit host s).isSome
  | none => (matchLit host s).isSome

/-- Semantics: `reMatch host url` is `re.match('^http(s)?://(www.)?' + host + '.*', url)`
as a Boolean (no `re.IGNORECASE` flag is set in the source, so matching is
case-sensitive).  The two `(s)?` branches are mutually exclusive on the
next input character (`'s' ≠ ':'`), so trying them in order loses no
backtracking behaviour. -/
def reMatch (host : List Char) (url : List Char) : Bool :=
  match matchLit httpLit url with
  | none => false
  | some r1 =>
    match matchLit schemeTailS r1 with
    | some r2 => optStep host r2
    | none =>
      match matchLit schemeTail r1 with
      | some r2 => optStep host r2
      | none => false

/-- Python `str.lower` (ASCII range; see the file comment). -/
def pyLower (s : String) : String := String.mk (s.data.map Char.toLower)

/-- Python `str.upper` (ASCII range; see the file comment). -/
def pyUpper (s : String) : String := String.mk (s.data.map Char.toUpper)

/-- Embeds the `GNews.__init__` line
`[f'^http(s)?://(www.)?{website.lower()}.*' for website in exclude_websites]`.
A pattern string `^http(s)?://(www.)?<h>.*` is represented by its hostname
part `<h>`; `reMatch` supplies the fixed surrounding pattern. -/
def mkRegexes (exclude_websites : List String) : List String :=
  exclude_websites.map pyLower

/-- Embeds `GNews.is_allowed_website`:
`all([not re.match(website, url) for website in blacklisted_websites])`. -/
def is_allowed_website (url : String) (blacklisted_websites : List String) : Bool :=
  blacklisted_websites.all (fun website => ! reMatch website.data url.data)

/-- Does `needle` match the front of `hay` (plain string comparison)? -/
def headMatch : List Char → List Char → Bool
  | [], _ => true
  | _ :: _, [] => false
  | c :: cs, d :: ds => c == d && headMatch cs ds

/-- Python's substring operator `needle in hay`. -/
def containsStr (needle : List Char) : List Char → Bool
  | [] => needle.isEmpty
  | d :: ds => headMatch needle (d :: ds) || containsStr needle ds

/-- A raw feed entry as consumed by `_get_url`/`_process`: the fields the
code reads through `item.get(...)`, each possibly absent. -/
structure Item where
  title : Option String
  description : Option String
  published : Option String
  link : Option String
  source : Option String
deriving DecidableEq, Repr

/-- The normalized record built by `GNews._process` (keys `title`,
`description`, `published date`, `url`, `publisher`). -/
structure NewsRec where
  title : String
  description : String
  published_date : String
  url : String
  publisher : String
deriving DecidableEq, Repr

/-- Python `text.replace(a, b)` for one-character `a` and `b`. -/
def pyReplaceChar (s : String) (a b : Char) : String :=
  String.mk (s.data.map (fun c => if c = a then b else c))

/-- The non-breaking space character `\xa0`. -/
def nbspChar : Char := Char.ofNat 160

/-- The configuration state a `GNews` instance carries (the fields of
`GNews.__init__` that the query operations read). -/
structure GNews where
  language : String
  country : String
  max_results : Nat
  period : Option String
  exclude_website_regexes : List String
deriving DecidableEq, Repr

/-- Embeds `GNews.__init__`: the exclusion patterns are precomputed from the
`exclude_websites` argument (see `mkRegexes`); `period=None` is `none`. -/
def GNews.init (language country : String) (max_results : Nat)
    (period : Option String) (exclude_websites : List String) : GNews :=
  { language := language
  , country := country
  , max_results := max_results
  , period := period
  , exclude_website_regexes := mkRegexes exclude_websites }

/-- Embeds `self._BASE_URL`. -/
def BASE_URL : String := "https://news.google.com/rss"

/-- The module-level constant `TOPICS`. -/
def TOPICS : List String :=
  ["WORLD", "NATION", "BUSINESS", "TECHNOLOGY", "ENTERTAINMENT", "SPORTS", "SCIENCE", "HEALTH"]

/-- Embeds `GNews._ceid`: Python's `if self._period:` is true exactly when the
period is neither `None` nor the empty string. -/
def GNews.ceid (g : GNews) : String :=
  match g.period with
  | some p =>
    if p = "" then
      "&ceid=" ++ g.country ++ ":" ++ g.language ++ "&hl=" ++ g.language ++ "&gl=" ++ g.country
    else
      "when%3A" ++ p ++ "&ceid=" ++ g.country ++ ":" ++ g.language ++
        "&hl=" ++ g.language ++ "&gl=" ++ g.country
  | none =>
    "&ceid=" ++ g.country ++ ":" ++ g.language ++ "&hl=" ++ g.language ++ "&gl=" ++ g.country

/-- Embeds `GNews._clean`: `Soup(html).get_text()` is the oracle `getText`, then
`text.replace('\xa0', ' ')`. -/
def GNews.clean (getText : String → String) (html : String) : String :=
  pyReplaceChar (getText html) nbspChar ' '

/-- Embeds `GNews._get_url`: read `item.get("link", "")`; when the link contains
the substring `news.google.com`, issue `requests.head(url)` — a raised
exception propagates (there is no `try` in the source) — and take
`.headers.get('location', url)`; otherwise return the link unchanged. -/
def GNews.get_url (head : String → Except Unit (Option String)) (item : Item) :
    Except Unit String :=
  let url := item.link.getD ""
  if containsStr "news.google.com".data url.data then
    match head url with
    | Except.error e => Except.error e
    | Except.ok headers => Except.ok (headers.getD url)
  else
    Except.ok url

/-- Embeds `GNews._process`: build the normalized record from the entry and the
resolved URL (note the `" "` default for a missing `source`). -/
def GNews.process (getText : String → String) (item : Item) (url : String) : NewsRec :=
  { title := item.title.getD ""
  , description := GNews.clean getText (item.description.getD "")
  , published_date := item.published.getD ""
  , url := url
  , publisher := item.source.getD " " }

/-- The loop body of `GNews._get_news` over the parsed entries: resolve
each entry's URL (a raised exception aborts the whole loop, so the whole
call errors), filter through `is_allowed_website`, normalize and append. -/
def get_news_aux (head : String → Except Unit (Option String))
    (getText : String → String) (regexes : List String) :
    List Item → Except Unit (List NewsRec)
  | [] => Except.ok []
  | e :: es =>
    match GNews.get_url head e with
    | Except.error err => Except.error err
    | Except.ok u =>
      match get_news_aux head getText regexes es with
      | Except.error err => Except.error err
      | Except.ok rest =>
        Except.ok (if is_allowed_website u regexes then GNews.process getText e u :: rest else rest)

/-- Embeds `GNews._get_news`: parse the feed at `url` and run the loop with the
instance's precomputed exclusion patterns. -/
def GNews.get_news_list (g : GNews) (parse : String → List Item)
    (head : String → Except Unit (Option String)) (getText : String → String)
    (url : String) : Except Unit (List NewsRec) :=
  get_news_aux head getText g.exclude_website_regexes (parse url)

/-- Python `' '.split(" ")` on a single-space separator: split at every
space, keeping empty fragments. -/
def splitChar (sep : Char) : List Char → List (List Char)
  | [] => [[]]
  | c :: cs =>
    if c = sep then [] :: splitChar sep cs
    else
      match splitChar sep cs with
      | [] => [[c]]
      | h :: t => (c :: h) :: t

/-- Python `sep.join(pieces)`. -/
def joinWith (sep : List Char) : List (List Char) → List Char
  | [] => []
  | [x] => x
  | x :: y :: ys => x ++ sep ++ joinWith sep (y :: ys)

/-- Embeds `"%20".join(key.split(" "))` from `GNews.get_news`. -/
def encodeSpaces (key : String) : String :=
  String.mk (joinWith ['%', '2', '0'] (splitChar ' ' key.data))

/-- The search URL built by `GNews.get_news` for a (already truthy) term:
`self._BASE_URL + '/search?q=\x7b\x7d'.format(key) + self._ceid()`. -/
def GNews.search_url (g : GNews) (key : String) : String :=
  BASE_URL ++ "/search?q=" ++ encodeSpaces key ++ g.ceid

/-- Embeds `GNews.get_news`: on a falsy (empty) term the function falls through
and returns Python `None`, modelled as `none`; otherwise it fetches the
search URL. -/
def GNews.get_news (g : GNews) (parse : String → List Item)
    (head : String → Except Unit (Option String)) (getText : String → String)
    (key : String) : Option (Except Unit (List NewsRec)) :=
  if key = "" then none
  else some (g.get_news_list parse head getText (g.search_url key))

/-- Embeds `GNews.get_top_news`. -/
def GNews.get_top_news (g : GNews) (parse : String → List Item)
    (head : String → Except Unit (Option String)) (getText : String → String) :
    Except Unit (List NewsRec) :=
  g.get_news_list parse head getText (BASE_URL ++ "?" ++ g.ceid)

/-- Embeds `GNews.get_news_by_topic`: upper-case the argument, check membership
in `TOPICS`; on failure log and return `[]` without fetching. -/
def GNews.get_news_by_topic (g : GNews) (parse : String → List Item)
    (head : String → Except Unit (Option String)) (getText : String → String)
    (topic : String) : Except Unit (List NewsRec) :=
  let t := pyUpper topic
  if TOPICS.contains t then
    g.get_news_list parse head getText
      (BASE_URL ++ "/headlines/section/topic/" ++ t ++ "?" ++ g.ceid)
  else
    Except.ok []

/-- Embeds `GNews.get_news_by_location`: a falsy (empty) location logs a warning
and returns `[]` without fetching. -/
def GNews.get_news_by_location (g : GNews) (parse : String → List Item)
    (head : String → Except Unit (Option String)) (getText : String → String)
    (location : String) : Except Unit (List NewsRec) :=
  if location = "" then Except.ok []
  else
    g.get_news_list parse head getText
      (BASE_URL ++ "/headlines/section/geo/" ++ location ++ "?" ++ g.ceid)


/-! ## Concrete fixtures used by witnesses and counterexamples -/

/-- The configuration of the C2 scenario: language `en`, country `US`, period `7d`. -/
def gPeriod7d : GNews := GNews.init "en" "US" 100 (some "7d") []

/-- A plain configuration with no period and no exclusions. -/
def gPlain : GNews := GNews.init "en" "US" 100 none []

/-- A feed entry whose link points at the aggregator. -/
def itemAgg : Item :=
  { title := some "t1", description := some "d1", published := some "p1"
  , link := some "https://news.google.com/articles/a", source := some "Pub1" }

/-- A feed entry with a direct publisher link. -/
def itemPub : Item :=
  { title := some "t2", description := some "d2", published := some "p2"
  , link := some "http://publisher.org/b", source := some "Pub2" }

/-- A feed entry whose publisher link merely contains `news.google.com`
in its path. -/
def itemPathAgg : Item :=
  { title := some "t3", description := none, published := none
  , link := some "http://publisher.org/news.google.com/c", source := none }

/-- A HEAD oracle that always raises. -/
def errHead : String → Except Unit (Option String) := fun _ => Except.error ()

/-- A HEAD oracle that always answers without a `location` header. -/
def okNoneHead : String → Except Unit (Option String) := fun _ => Except.ok none

/-- A HEAD oracle that always redirects to a fixed publisher URL. -/
def redirHead : String → Except Unit (Option String) :=
  fun _ => Except.ok (some "http://publisher.org/resolved")

/-- A parse oracle returning a fixed batch of two entries. -/
def parseTwo : String → List Item := fun _ => [itemAgg, itemPub]

/-- The identity text extractor (adequate for markup-free descriptions). -/
def idText : String → String := fun s => s

/-- A feed entry whose link belongs to an excluded publisher. -/
def itemExcl : Item :=
  { title := some "t4", description := some "d4", published := some "p4"
  , link := some "http://excluded.com/x", source := some "Pub4" }

/-- A feed entry with no link field at all. -/
def itemNoLink : Item :=
  { title := some "t5", description := none, published := none
  , link := none, source := none }

/-- A configuration excluding `excluded.com`. -/
def gExcl : GNews := GNews.init "en" "US" 100 none ["excluded.com"]

/-- A configuration whose `max_results` is zero. -/
def gZero : GNews := GNews.init "en" "US" 0 none []

/-- A parse oracle returning one allowed and one excluded entry. -/
def parseMix : String → List Item := fun _ => [itemPub, itemExcl]

/-! ## Lemmas about the pattern matcher -/

theorem charMatch_self (c : Char) : charMatch c c = true := by
  unfold charMatch
  split
  · next h => rw [h]; decide
  · simp

theorem matchLit_append_self (p r : List Char) : matchLit p (p ++ r) = some r := by
  induction p with
  | nil => rfl
  | cons c ps ih => simp [matchLit, charMatch_self, ih]

theorem matchLit_some_drop {p s r : List Char} (h : matchLit p s = some r) :
    ∃ n, r = s.drop n := by
  induction p generalizing s with
  | nil =>
    refine ⟨0, ?_⟩
    simp [matchLit] at h
    simp [h]
  | cons c ps ih =>
    cases s with
    | nil => simp [matchLit] at h
    | cons d ss =>
      simp only [matchLit] at h
      by_cases hc : charMatch c d
      · rw [if_pos hc] at h
        obtain ⟨n, hn⟩ := ih h
        exact ⟨n + 1, by simp [hn]⟩
      · rw [if_neg hc] at h
        exact absurd h (by simp)

theorem optStep_append_self (h r : List Char) : optStep h (h ++ r) = true := by
  unfold optStep
  cases hw : matchLit wwwDot (h ++ r) with
  | none => simp [matchLit_append_self]
  | some r2 => simp [matchLit_append_self]

theorem optStep_www (h r : List Char) :
    optStep h ('w' :: 'w' :: 'w' :: '.' :: (h ++ r)) = true := by
  unfold optStep
  have hw : matchLit wwwDot ('w' :: 'w' :: 'w' :: '.' :: (h ++ r)) = some (h ++ r) := rfl
  rw [hw]
  simp [matchLit_append_self]

theorem optStep_none {h s : List Char} (H : ∀ n, matchLit h (s.drop n) = none) :
    optStep h s = false := by
  unfold optStep
  cases hw : matchLit wwwDot s with
  | none =>
    have h0 := H 0
    simp only [List.drop_zero] at h0
    simp [h0]
  | some r2 =>
    obtain ⟨n, hn⟩ := matchLit_some_drop hw
    have h0 := H 0
    simp only [List.drop_zero] at h0
    simp [hn, H n, h0]

theorem reMatch_http (h t : List Char) :
    reMatch h ('h' :: 't' :: 't' :: 'p' :: ':' :: '/' :: '/' :: t) = optStep h t := rfl

theorem reMatch_https (h t : List Char) :
    reMatch h ('h' :: 't' :: 't' :: 'p' :: 's' :: ':' :: '/' :: '/' :: t) = optStep h t := rfl

theorem reMatch_true_drop {h url : List Char} (hm : reMatch h url = true) :
    ∃ n, (matchLit h (url.drop n)).isSome := by
  have step_case : ∀ r2 : List Char, (∃ m, r2 = url.drop m) → optStep h r2 = true →
      ∃ n, (matchLit h (url.drop n)).isSome = true := by
    intro r2 hex hstep
    obtain ⟨m, hm2⟩ := hex
    unfold optStep at hstep
    split at hstep
    · next r3 hw =>
      rcases Bool.or_eq_true_iff.mp hstep with h3 | h3
      · obtain ⟨k, hk⟩ := matchLit_some_drop hw
        refine ⟨m + k, ?_⟩
        have hr : r3 = List.drop (m + k) url := by rw [hk, hm2, List.drop_drop]
        rw [← hr]
        exact h3
      · exact ⟨m, by rw [← hm2]; exact h3⟩
    · exact ⟨m, by rw [← hm2]; exact hstep⟩
  unfold reMatch at hm
  split at hm
  · exact absurd hm (by simp)
  · next r1 h1 =>
    split at hm
    · next r2 h2 =>
      obtain ⟨n1, hn1⟩ := matchLit_some_drop h1
      obtain ⟨n2, hn2⟩ := matchLit_some_drop h2
      exact step_case r2 ⟨n1 + n2, by rw [hn2, hn1, List.drop_drop]⟩ hm
    · split at hm
      · next r2 h3 =>
        obtain ⟨n1, hn1⟩ := matchLit_some_drop h1
        obtain ⟨n2, hn2⟩ := matchLit_some_drop h3
        exact step_case r2 ⟨n1 + n2, by rw [hn2, hn1, List.drop_drop]⟩ hm
      · exact absurd hm (by simp)

/-! ## C1: behaviour of the website filter on excluded hosts -/

/-- C1 counterexample: the claim quantifies over every configured
exclusion hostname `H`, but the generated pattern lowercases `H` while
`re.match` runs case-sensitively, so for `H = "Example.com"` the URL
`http://Example.com/a` (whose host is exactly `H`, under `http`) is
allowed even though the claim requires `is_allowed_website` to be false. -/
theorem c1_filter_counterexample :
    is_allowed_website "http://Example.com/a" (mkRegexes ["Example.com"]) = true := by
  decide

/-- C1 (amended): for every configured hostname `H` that is already
lowercase, every URL of the form `scheme ++ host ++ rest` with scheme
`http://` or `https://` and host `H` or `www.H` is rejected by
`is_allowed_website`; and every URL in which no configured hostname
(lowercased, its dots read as single-character regex wildcards) matches
at any position is allowed. -/
theorem c1_filter_amended (ws : List String) (url : String) :
    (∀ H ∈ ws, pyLower H = H →
      ∀ scheme hostw rest : String,
        (scheme = "http://" ∨ scheme = "https://") →
        (hostw = "" ∨ hostw = "www.") →
        url = scheme ++ (hostw ++ (H ++ rest)) →
        is_allowed_website url (mkRegexes ws) = false) ∧
    ((∀ w ∈ ws, ∀ n : Nat, matchLit (pyLower w).data (url.data.drop n) = none) →
      is_allowed_website url (mkRegexes ws) = true) := by
  constructor
  · intro H hH hlow scheme hostw rest hscheme hostcase hurl
    have hmatch : reMatch H.data url.data = true := by
      subst hurl
      rcases hscheme with rfl | rfl <;> rcases hostcase with rfl | rfl
      · rw [show ("http://" ++ ("" ++ (H ++ rest))).data =
            'h' :: 't' :: 't' :: 'p' :: ':' :: '/' :: '/' :: (H.data ++ rest.data) by
          simp [String.data_append]]
        rw [reMatch_http]
        exact optStep_append_self H.data rest.data
      · rw [show ("http://" ++ ("www." ++ (H ++ rest))).data =
            'h' :: 't' :: 't' :: 'p' :: ':' :: '/' :: '/' ::
              'w' :: 'w' :: 'w' :: '.' :: (H.data ++ rest.data) by
          simp [String.data_append]]
        rw [reMatch_http]
        exact optStep_www H.data rest.data
      · rw [show ("https://" ++ ("" ++ (H ++ rest))).data =
            'h' :: 't' :: 't' :: 'p' :: 's' :: ':' :: '/' :: '/' :: (H.data ++ rest.data) by
          simp [String.data_append]]
        rw [reMatch_https]
        exact optStep_append_self H.data rest.data
      · rw [show ("https://" ++ ("www." ++ (H ++ rest))).data =
            'h' :: 't' :: 't' :: 'p' :: 's' :: ':' :: '/' :: '/' ::
              'w' :: 'w' :: 'w' :: '.' :: (H.data ++ rest.data) by
          simp [String.data_append]]
        rw [reMatch_https]
        exact optStep_www H.data rest.data
    have hmem : H ∈ mkRegexes ws := by
      have := List.mem_map_of_mem pyLower hH
      rw [hlow] at this
      exact this
    unfold is_allowed_website
    rw [List.all_eq_false]
    exact ⟨H, hmem, by simp [hmatch]⟩
  · intro hnone
    unfold is_allowed_website
    rw [List.all_eq_true]
    intro w' hw'
    obtain ⟨w, hwmem, rfl⟩ := List.mem_map.mp hw'
    cases hb : reMatch (pyLower w).data url.data with
    | false => simp
    | true =>
      obtain ⟨n, hn⟩ := reMatch_true_drop hb
      rw [hnone w hwmem n] at hn
      simp at hn

theorem matchLit_none_all {p s : List Char}
    (hbound : ∀ n, n ≤ s.length → matchLit p (s.drop n) = none) :
    ∀ n, matchLit p (s.drop n) = none := by
  intro n
  by_cases h : n ≤ s.length
  · exact hbound n h
  · have hnil : s.drop n = [] := List.drop_eq_nil_of_le (by omega)
    have h2 := hbound s.length (Nat.le_refl _)
    rw [List.drop_eq_nil_of_le (Nat.le_refl _)] at h2
    rw [hnil]
    exact h2

/-- C1 witness: both halves of the amended statement at concrete inputs —
`https://www.example.com/x` is rejected for configured host
`example.com`, and `https://unrelated.org/x` is allowed. -/
theorem c1_filter_witness :
    is_allowed_website "https://www.example.com/x" (mkRegexes ["example.com"]) = false ∧
    is_allowed_website "https://unrelated.org/x" (mkRegexes ["example.com"]) = true :=
  ⟨(c1_filter_amended ["example.com"] "https://www.example.com/x").1 "example.com"
      (by decide) (by decide) "https://" "www." "/x" (Or.inr rfl) (Or.inr rfl) (by decide),
   (c1_filter_amended ["example.com"] "https://unrelated.org/x").2 (by
      intro w hw n
      rcases List.mem_singleton.mp hw with rfl
      exact matchLit_none_all (by decide) n)⟩

/-! ## C2: the locale/period suffix -/

/-- C2 counterexample: with period `7d`, language `en`, country `US`, the
suffix built by `_ceid` is `when%3A7d&ceid=US:en&hl=en&gl=US` (the colon
after `when` is URL-encoded by the source format string), so the claimed
suffix `when:7d&ceid=US:en&hl=en&gl=US` is not produced. -/
theorem c2_ceid_counterexample :
    GNews.ceid gPeriod7d ≠ "when:7d&ceid=US:en&hl=en&gl=US" ∧
    GNews.ceid gPeriod7d = "when%3A7d&ceid=US:en&hl=en&gl=US" := by
  constructor <;> decide

/-- C2 (amended): with a set (non-empty) period the suffix is exactly
`when%3A<period>&ceid=<country>:<language>&hl=<language>&gl=<country>`
(`%3A` is the URL-encoded colon); with no period it is exactly
`&ceid=<country>:<language>&hl=<language>&gl=<country>`. -/
theorem c2_ceid_amended (l c p : String) (m : Nat) (ex : List String) :
    (p ≠ "" →
      GNews.ceid
        { language := l, country := c, max_results := m, period := some p,
          exclude_website_regexes := ex } =
        "when%3A" ++ p ++ "&ceid=" ++ c ++ ":" ++ l ++ "&hl=" ++ l ++ "&gl=" ++ c) ∧
    GNews.ceid
      { language := l, country := c, max_results := m, period := none,
        exclude_website_regexes := ex } =
      "&ceid=" ++ c ++ ":" ++ l ++ "&hl=" ++ l ++ "&gl=" ++ c := by
  constructor
  · intro hp
    simp [GNews.ceid, hp]
  · rfl

/-- C2 witness: the amended statement at the `7d`/`en`/`US` scenario. -/
theorem c2_ceid_witness :
    GNews.ceid gPeriod7d = "when%3A" ++ "7d" ++ "&ceid=" ++ "US" ++ ":" ++ "en" ++
      "&hl=" ++ "en" ++ "&gl=" ++ "US" :=
  (c2_ceid_amended "en" "US" "7d" 100 []).1 (by decide)

/-! ## C3: HEAD failure handling in URL resolution -/

/-- C3 counterexample: `_get_url` has no `try`/`except`, so a raised
HEAD exception is not recovered into the original aggregator link: it
propagates out of `_get_url`, and in `_get_news` it aborts the whole
batch (the following publisher entry is never processed). -/
theorem c3_head_counterexample :
    GNews.get_url errHead itemAgg = Except.error () ∧
    get_news_aux errHead idText [] [itemAgg, itemPub] = Except.error () := by
  constructor <;> rfl

/-- C3 (amended): when the HEAD request completes but carries no
`location` header, the original aggregator link is used and processing
of the batch continues; when the HEAD request raises, the fault
propagates out of `_get_news` and aborts the batch. -/
theorem c3_head_amended (head : String → Except Unit (Option String))
    (getText : String → String) (regexes : List String) (item : Item) (es : List Item) :
    (head (item.link.getD "") = Except.ok none →
      GNews.get_url head item = Except.ok (item.link.getD "")) ∧
    (head (item.link.getD "") = Except.ok none →
      ∀ rest, get_news_aux head getText regexes es = Except.ok rest →
        get_news_aux head getText regexes (item :: es) =
          Except.ok (if is_allowed_website (item.link.getD "") regexes then
            GNews.process getText item (item.link.getD "") :: rest
          else rest)) ∧
    (containsStr "news.google.com".data (item.link.getD "").data = true →
      head (item.link.getD "") = Except.error () →
      get_news_aux head getText regexes (item :: es) = Except.error ()) := by
  have hgeturl : head (item.link.getD "") = Except.ok none →
      GNews.get_url head item = Except.ok (item.link.getD "") := by
    intro hok
    unfold GNews.get_url
    by_cases hc : containsStr ("news.google.com".data) (item.link.getD "").data = true
    · rw [if_pos hc, hok]
      rfl
    · rw [if_neg hc]
  refine ⟨hgeturl, ?_, ?_⟩
  · intro hok rest hrest
    simp only [get_news_aux, hgeturl hok, hrest]
  · intro hc herr
    have hurl : GNews.get_url head item = Except.error () := by
      unfold GNews.get_url
      rw [if_pos hc, herr]
    simp only [get_news_aux, hurl]

/-- C3 witness: with a HEAD oracle answering without `location`, the
aggregator entry falls back to its own link and the one-entry batch
succeeds; with a raising HEAD oracle the same entry aborts a batch. -/
theorem c3_head_witness :
    GNews.get_url okNoneHead itemAgg = Except.ok "https://news.google.com/articles/a" ∧
    get_news_aux okNoneHead idText [] [itemAgg] =
      Except.ok (if is_allowed_website "https://news.google.com/articles/a" [] then
        [GNews.process idText itemAgg "https://news.google.com/articles/a"]
      else []) ∧
    get_news_aux errHead idText [] [itemAgg, itemPub] = Except.error () :=
  ⟨(c3_head_amended okNoneHead idText [] itemAgg []).1 rfl,
   (c3_head_amended okNoneHead idText [] itemAgg []).2.1 rfl [] rfl,
   (c3_head_amended errHead idText [] itemAgg [itemPub]).2.2 (by decide) rfl⟩

/-! ## C4: case sensitivity of the exclusion filter -/

/-- C4 counterexample: `http://example.com/a` is blocked for configured
hostname `example.com`, but `HTTP://example.com/a` — differing only in
the letter case of the scheme — is allowed, because the generated
pattern is matched without `re.IGNORECASE`. -/
theorem c4_case_counterexample :
    is_allowed_website "http://example.com/a" (mkRegexes ["example.com"]) = false ∧
    is_allowed_website "HTTP://example.com/a" (mkRegexes ["example.com"]) = true := by
  constructor <;> decide

theorem toNat_char_ofNat_valid (n : Nat) (h : n < 55296) : (Char.ofNat n).toNat = n := by
  rw [Char.ofNat, dif_pos (Or.inl h)]
  rfl

theorem char_toLower_idem (c : Char) : Char.toLower (Char.toLower c) = Char.toLower c := by
  unfold Char.toLower
  by_cases h : 65 ≤ c.toNat ∧ c.toNat ≤ 90
  · rw [if_pos h]
    have h2 : (Char.ofNat (c.toNat + 32)).toNat = c.toNat + 32 :=
      toNat_char_ofNat_valid _ (by omega)
    rw [if_neg (by omega)]
  · rw [if_neg h, if_neg h]

theorem pyLower_idem (s : String) : pyLower (pyLower s) = pyLower s := by
  unfold pyLower
  refine congrArg String.mk ?_
  show (s.data.map Char.toLower).map Char.toLower = s.data.map Char.toLower
  rw [List.map_map]
  exact List.map_congr_left (fun c _ => char_toLower_idem c)

/-- C4 (amended): case-insensitivity holds only for the configured
hostnames: hostname lists agreeing up to letter case produce identical
pattern lists, hence identical filtering decisions on every URL.  URL
matching itself is case-sensitive (see the counterexample). -/
theorem c4_case_amended (ws1 ws2 : List String) (url : String)
    (h : ws1.map pyLower = ws2.map pyLower) :
    mkRegexes ws1 = mkRegexes ws2 ∧
    is_allowed_website url (mkRegexes ws1) = is_allowed_website url (mkRegexes ws2) := by
  unfold mkRegexes
  exact ⟨h, by rw [h]⟩

/-- C4 witness: `ExAmPle.CoM` and `example.com` configure the same
filter, and both block `http://example.com/a`. -/
theorem c4_case_witness :
    mkRegexes ["ExAmPle.CoM"] = mkRegexes ["example.com"] ∧
    is_allowed_website "http://example.com/a" (mkRegexes ["ExAmPle.CoM"]) =
      is_allowed_website "http://example.com/a" (mkRegexes ["example.com"]) :=
  c4_case_amended ["ExAmPle.CoM"] ["example.com"] "http://example.com/a" (by decide)

/-! ## C5: the empty search term -/

/-- C5 counterexample: `get_news("")` falls through the `if key:` guard
and returns Python `None` — not an empty result sequence. -/
theorem c5_empty_counterexample :
    GNews.get_news gPlain parseTwo okNoneHead idText "" = none ∧
    GNews.get_news gPlain parseTwo okNoneHead idText "" ≠ some (Except.ok []) := by
  constructor
  · rfl
  · intro h
    simp [GNews.get_news] at h

/-- C5 (amended): for every configuration and every oracle, `get_news`
on the empty term returns `None` (no value, modelled `none`): no fetch
is attempted and no fault is raised, but the result is not the empty
list either — the caller must treat the absent value as empty. -/
theorem c5_empty_amended (g : GNews) (parse : String → List Item)
    (head : String → Except Unit (Option String)) (getText : String → String) :
    GNews.get_news g parse head getText "" = none := rfl

/-! ## C6: the filter invariant on emitted records -/

theorem get_news_aux_allowed (head : String → Except Unit (Option String))
    (getText : String → String) (regexes : List String) :
    ∀ (items : List Item) (recs : List NewsRec),
      get_news_aux head getText regexes items = Except.ok recs →
      ∀ r ∈ recs, is_allowed_website r.url regexes = true := by
  intro items
  induction items with
  | nil =>
    intro recs h r hr
    simp only [get_news_aux] at h
    injection h with h
    subst h
    simp at hr
  | cons e es ih =>
    intro recs h r hr
    simp only [get_news_aux] at h
    cases hu : GNews.get_url head e with
    | error err => rw [hu] at h; exact absurd h (by simp)
    | ok u =>
      rw [hu] at h
      cases hes : get_news_aux head getText regexes es with
      | error err => rw [hes] at h; exact absurd h (by simp)
      | ok rest =>
        rw [hes] at h
        injection h with h
        subst h
        by_cases hallow : is_allowed_website u regexes = true
        · rw [if_pos hallow] at hr
          rcases List.mem_cons.mp hr with rfl | hr2
          · show is_allowed_website (GNews.process getText e u).url regexes = true
            exact hallow
          · exact ih rest hes r hr2
        · rw [if_neg hallow] at hr
          exact ih rest hes r hr

/-- C6: every record in a successful `_get_news` result passes the
website filter against the exclusion patterns held by the instance at
the time of the call. -/
theorem c6_filter_invariant (g : GNews) (parse : String → List Item)
    (head : String → Except Unit (Option String)) (getText : String → String)
    (url : String) (recs : List NewsRec)
    (h : g.get_news_list parse head getText url = Except.ok recs) :
    ∀ r ∈ recs, is_allowed_website r.url g.exclude_website_regexes = true :=
  get_news_aux_allowed head getText g.exclude_website_regexes (parse url) recs h

/-- C6 witness: with `excluded.com` configured, a fetch over one allowed
and one excluded entry emits only the allowed record, and that record
passes the filter. -/
theorem c6_filter_witness :
    is_allowed_website (GNews.process idText itemPub "http://publisher.org/b").url
      gExcl.exclude_website_regexes = true :=
  c6_filter_invariant gExcl parseMix okNoneHead idText "feed"
    [GNews.process idText itemPub "http://publisher.org/b"] rfl
    (GNews.process idText itemPub "http://publisher.org/b") (by simp)

/-! ## C7: topic validation -/

/-- C7: a topic failing the case-insensitive membership test against
`TOPICS` (tested after upper-casing) yields `Except.ok []` for every
configuration and every oracle — no fetch can influence the result. -/
theorem c7_topic_invalid (g : GNews) (parse : String → List Item)
    (head : String → Except Unit (Option String)) (getText : String → String)
    (topic : String) (h : TOPICS.contains (pyUpper topic) = false) :
    g.get_news_by_topic parse head getText topic = Except.ok [] := by
  have hneg : ¬ (TOPICS.contains (pyUpper topic) = true) := by
    rw [h]
    exact Bool.false_ne_true
  simp only [GNews.get_news_by_topic]
  rw [if_neg hneg]

/-- C7 witness: `not-a-real-topic` (even with a raising network oracle)
returns the empty list. -/
theorem c7_topic_witness :
    GNews.get_news_by_topic gPlain parseTwo errHead idText "not-a-real-topic" =
      Except.ok [] :=
  c7_topic_invalid gPlain parseTwo errHead idText "not-a-real-topic" (by decide)

/-! ## C8: space encoding in the search URL -/

theorem splitChar_ne_nil (sep : Char) (l : List Char) : splitChar sep l ≠ [] := by
  cases l with
  | nil => simp [splitChar]
  | cons c cs =>
    unfold splitChar
    by_cases h : c = sep
    · simp [h]
    · rw [if_neg h]
      cases hs : splitChar sep cs <;> simp

theorem joinWith_cons_head (sep : List Char) (c : Char) (hd : List Char)
    (tl : List (List Char)) :
    joinWith sep ((c :: hd) :: tl) = c :: joinWith sep (hd :: tl) := by
  cases tl with
  | nil => rfl
  | cons y ys => simp [joinWith]

theorem encode_chars (l : List Char) :
    joinWith ['%', '2', '0'] (splitChar ' ' l) =
      l.flatMap (fun c => if c = ' ' then ['%', '2', '0'] else [c]) := by
  induction l with
  | nil => rfl
  | cons c cs ih =>
    unfold splitChar
    by_cases h : c = ' '
    · subst h
      rw [if_pos rfl]
      cases hs : splitChar ' ' cs with
      | nil => exact absurd hs (splitChar_ne_nil ' ' cs)
      | cons hd tl =>
        rw [hs] at ih
        simp only [joinWith, List.flatMap_cons, if_pos rfl]
        cases tl with
        | nil => simpa using ih
        | cons y ys => simpa using ih
    · rw [if_neg h]
      cases hs : splitChar ' ' cs with
      | nil => exact absurd hs (splitChar_ne_nil ' ' cs)
      | cons hd tl =>
        rw [hs] at ih
        rw [joinWith_cons_head, ih]
        simp [h]

/-- C8: for every non-empty search term, the search URL built by
`get_news` is the fixed base-and-path string followed by the term with
every space character replaced by `%20` (all other characters are
passed through unencoded), followed by the locale suffix. -/
theorem c8_search_url (g : GNews) (key : String) (_hk : key ≠ "") :
    (g.search_url key).data =
      "https://news.google.com/rss/search?q=".data ++
        (key.data.flatMap (fun c => if c = ' ' then ['%', '2', '0'] else [c]) ++
          (GNews.ceid g).data) := by
  unfold GNews.search_url encodeSpaces BASE_URL
  simp [String.data_append, encode_chars]

/-- C8 witness: the term `climate change` produces the path segment
`/search?q=climate%20change` between the base URL and the suffix. -/
theorem c8_search_witness :
    (gPlain.search_url "climate change").data =
      "https://news.google.com/rss/search?q=".data ++
        ("climate change".data.flatMap (fun c => if c = ' ' then ['%', '2', '0'] else [c]) ++
          (GNews.ceid gPlain).data) :=
  c8_search_url gPlain "climate change" (by decide)

/-! ## C9: `max_results` is stored but never used -/

/-- C9: none of the four query operations reads `max_results` — two
configurations differing only in that field produce identical results
for every oracle and every argument — and the result is not truncated:
with `max_results = 0` a two-entry feed still yields two records. -/
theorem c9_max_results_unused (g : GNews) (m1 m2 : Nat)
    (parse : String → List Item) (head : String → Except Unit (Option String))
    (getText : String → String) (key topic location : String) :
    (GNews.get_news { g with max_results := m1 } parse head getText key =
      GNews.get_news { g with max_results := m2 } parse head getText key) ∧
    (GNews.get_top_news { g with max_results := m1 } parse head getText =
      GNews.get_top_news { g with max_results := m2 } parse head getText) ∧
    (GNews.get_news_by_topic { g with max_results := m1 } parse head getText topic =
      GNews.get_news_by_topic { g with max_results := m2 } parse head getText topic) ∧
    (GNews.get_news_by_location { g with max_results := m1 } parse head getText location =
      GNews.get_news_by_location { g with max_results := m2 } parse head getText location) ∧
    gZero.max_results = 0 ∧
    GNews.get_top_news gZero parseTwo redirHead idText =
      Except.ok [GNews.process idText itemAgg "http://publisher.org/resolved",
        GNews.process idText itemPub "http://publisher.org/b"] :=
  ⟨rfl, rfl, rfl, rfl, rfl, rfl⟩

/-! ## C10: aggregator detection is a plain substring test -/

/-- C10: `_get_url` issues the HEAD resolution exactly when the literal
substring `news.google.com` occurs anywhere in the entry link (so a
publisher URL containing it in its path is resolved too); without the
substring the link is returned unchanged and the HEAD oracle is
irrelevant; a missing link field yields the empty string. -/
theorem c10_get_url_substring (head head2 : String → Except Unit (Option String))
    (item : Item) :
    (item.link = none → GNews.get_url head item = Except.ok "") ∧
    (containsStr "news.google.com".data (item.link.getD "").data = false →
      GNews.get_url head item = Except.ok (item.link.getD "") ∧
      GNews.get_url head item = GNews.get_url head2 item) ∧
    (containsStr "news.google.com".data (item.link.getD "").data = true →
      GNews.get_url head item =
        (match head (item.link.getD "") with
         | Except.error e => Except.error e
         | Except.ok headers => Except.ok (headers.getD (item.link.getD "")))) := by
  refine ⟨?_, ?_, ?_⟩
  · intro hnone
    unfold GNews.get_url
    rw [hnone]
    rw [if_neg (by decide)]
    rfl
  · intro hc
    have hneg : ¬ (containsStr "news.google.com".data (item.link.getD "").data = true) := by
      rw [hc]
      exact Bool.false_ne_true
    unfold GNews.get_url
    rw [if_neg hneg, if_neg hneg]
    exact ⟨rfl, rfl⟩
  · intro hc
    unfold GNews.get_url
    rw [if_pos hc]

/-- C10 witness: a publisher link containing `news.google.com` in its
path is resolved through HEAD; a plain publisher link is returned
unchanged whatever the oracle; a missing link yields `""`. -/
theorem c10_get_url_witness :
    GNews.get_url redirHead itemPathAgg =
      (match redirHead "http://publisher.org/news.google.com/c" with
       | Except.error e => Except.error e
       | Except.ok headers =>
         Except.ok (headers.getD "http://publisher.org/news.google.com/c")) ∧
    GNews.get_url redirHead itemPub = Except.ok "http://publisher.org/b" ∧
    GNews.get_url errHead itemNoLink = Except.ok "" :=
  ⟨(c10_get_url_substring redirHead errHead itemPathAgg).2.2 (by decide),
   ((c10_get_url_substring redirHead errHead itemPub).2.1 (by decide)).1,
   (c10_get_url_substring errHead errHead itemNoLink).1 rfl⟩
